import Mathlib

/-!
# Verification of the DuckingAI automation engine

Shallow embedding of the automation orchestration engine of the DuckingAI
browser extension:

* `src/DuckingAI/src/js/background.js` — the orchestrator: polling,
  instruction triggering, navigation, the multi-step state machine
  (`handleCurrentStep`), and persistence of the `pendingAutomation` record.
* `src/DuckingAI/src/js/content.js` — the page-context executor: the
  element-resolution pipeline (`clickElement`, `waitForElement`) and the
  click batch loop (`handleElementsToClick`).

Modelling conventions:

* JavaScript strings are Lean `String`s; `String.prototype.includes`,
  `trim`, `toLowerCase` are re-implemented below as executable functions
  over `String.data`.
* The DOM is a static list of `DomElement`s in document order.  CSS
  matching performed by the browser (`document.querySelectorAll`) is an
  oracle recorded on each element (`matchedBy` lists the selector strings
  the browser reports the element as matching), while direct property
  access (`tagName`, `textContent`, `getAttribute`, visibility through
  `offsetWidth`/`offsetHeight`) is modelled by structure fields.
* Asynchronous waiting (`waitForElement`'s MutationObserver + interval +
  timeout) is evaluated against the static DOM: with no mutations every
  re-check returns the same answer as the immediate check, so the wait
  either resolves immediately or resolves `null` when the timeout fires;
  the `elapsed` field records which.
* `chrome.storage.local` is a single `Option PendingAutomation` value;
  storage writes, removals, message dispatches and navigations are logged
  in order in an `Event` trace so that ordering claims can be stated.
* The background script is single-threaded and callback-driven; each
  entry point (`pollForAutomation`, `triggerAutomation`, the
  `tabs.onUpdated` listener) is modelled as a function from the mutable
  state (`AutomationState`), the persisted record and an environment
  (`PollCtx`: current URL, clock, fetch result, message-ack success) to a
  `BgOutcome`.  Triggers are serialized, matching the run-to-completion
  semantics of the extension event loop.
-/

/-! ## String helpers (JavaScript string primitives) -/

/-- Substring containment on character lists; `listContainsSub h s` is
`true` iff `s` occurs contiguously in `h` (JS `String.prototype.includes`). -/
def listContainsSub : List Char → List Char → Bool
  | [], sub => sub.isEmpty
  | c :: t, sub => sub.isPrefixOf (c :: t) || listContainsSub t sub

/-- JS `s.includes(sub)`. -/
def strIncludes (s sub : String) : Bool :=
  listContainsSub s.data sub.data

/-- Whitespace recognised by JS `String.prototype.trim` (the characters that
occur in the modelled pages). -/
def isWs (c : Char) : Bool :=
  c == ' ' || c == '\t' || c == '\n' || c == '\r'

/-- JS `s.trim()`. -/
def jsTrim (s : String) : String :=
  ⟨((s.data.dropWhile isWs).reverse.dropWhile isWs).reverse⟩

/-- JS `s.toLowerCase()` (ASCII, which covers the string literals of the
source). -/
def jsLower (s : String) : String :=
  ⟨s.data.map Char.toLower⟩

/-- First index at which `pat` occurs in `hay` with at least one further
character after the match (the `/pat.+$/` shape used by `clickElement`'s
loose-search regex). -/
def firstIdxStrictSuffix : List Char → List Char → Nat → Option Nat
  | [], _, _ => none
  | c :: t, pat, i =>
    if pat.isPrefixOf (c :: t) && pat.length < (c :: t).length then some i
    else firstIdxStrictSuffix t pat (i + 1)

/-- `description.replace(/button in.+$/i, "").trim()` from content.js line
664: case-insensitively strip everything from the first "button in" that is
followed by at least one character, then trim. -/
def stripButtonIn (desc : String) : String :=
  match firstIdxStrictSuffix (jsLower desc).data "button in".data 0 with
  | some i => jsTrim ⟨desc.data.take i⟩
  | none => jsTrim desc

/-! ## Data model -/

/-- One automation step, with the field names used by the JSON instructions
and the destructuring in content.js `clickElement` (lines 470-478) and
background.js `handleCurrentStep`.  `Option` fields model properties that
may be absent from the JSON. -/
structure Step where
  description : String := ""
  selector : String := ""
  fallback_selectors : List String := []
  text_content : Option String := none
  action : Option String := none
  timeout : Option Nat := none
  wait_before_click : Option Nat := none
  critical : Bool := false
  duration : Option Nat := none
deriving Repr, DecidableEq

/-- One automation instruction as fetched from the backend
(background.js `triggerAutomation` / `executeAutomation`). -/
structure Instruction where
  action : String := ""
  target_url : String := ""
  steps : List Step := []
  session_id : Option String := none
  elements_to_click : List Step := []
deriving Repr, DecidableEq

/-- The persisted `pendingAutomation` record (background.js lines 279-285,
341-347, 370-377, 400-407).  `executedSteps` defaults to `[]`, matching the
`pendingAutomation.executedSteps || []` read. -/
structure PendingAutomation where
  instruction : Instruction
  currentStepIndex : Nat := 0
  lastUpdated : Nat := 0
  executedSteps : List Nat := []
deriving Repr, DecidableEq

/-- The background script's mutable state object `automationState`
(background.js lines 8-16).  `completedSessionIds` is the insertion-ordered
contents of the JS `Set`. -/
structure AutomationState where
  isRunning : Bool := false
  completedSessionIds : List String := []
  lastRunTime : Nat := 0
  polling : Bool := true
  navigationInProgress : Bool := false
  lastNavigationUrl : Option String := none
  processingLock : Bool := false
deriving Repr, DecidableEq

/-- Observable side effects of the orchestrator, logged in program order:
storage writes/removals of the `pendingAutomation` key, tab navigation,
the HTTP instruction fetch, and `AUTOMATION_CLICK` dispatches to the
content script (`dispatchStep i` carries the multi-step index being sent;
`dispatchList` is the single-request dispatch used for
`navigate_and_click` or an unrecognised action). -/
inductive Event where
  | fetch : Event
  | navigate : String → Event
  | setStorage : PendingAutomation → Event
  | removeStorage : Event
  | dispatchStep : Nat → Event
  | dispatchList : Event
deriving Repr, DecidableEq

/-- Result of one `handleCurrentStep` invocation: the persisted record
after the call, the ordered side-effect trace, the multi-step indices
dispatched, and whether the call set `automationState.isRunning = false`. -/
structure StepOutcome where
  storage : Option PendingAutomation
  events : List Event
  dispatched : List Nat
  clearsRunning : Bool
deriving Repr, DecidableEq

/-- Environment for one background entry-point invocation: the active
tab's URL, the clock (`Date.now()`), the instruction-fetch result (`none`
models both a non-OK response and a missing instruction, which share the
catch path), whether `chrome.tabs.sendMessage` reaches a content script,
and whether a started navigation completes within the 30 s timeout. -/
structure PollCtx where
  currentUrl : String := ""
  now : Nat := 0
  fetched : Option Instruction := none
  sendOk : Bool := true
  loadOk : Bool := true
deriving Repr, DecidableEq

/-- Result of a background entry point. -/
structure BgOutcome where
  state : AutomationState
  storage : Option PendingAutomation
  events : List Event
deriving Repr, DecidableEq

/-- Result of `executeAutomation`; `error` is the message of a thrown
exception, with the state/storage/events reflecting the mutations that
happened before the throw. -/
structure ExecOutcome where
  state : AutomationState
  storage : Option PendingAutomation
  events : List Event
  error : Option String
deriving Repr, DecidableEq

/-! ## DOM model -/

/-- A live DOM element.  `matchedBy` is the CSS-matching oracle: the list
of selector strings for which the browser's `querySelectorAll` reports
this element (CSS matching itself is the host browser's job; the code
under verification only consumes its answers).  Property reads are fields:
`tagName` is the upper-case DOM tag, `role`/`tabindex`/`dataAutomationId`
model `getAttribute`, `visible` models
`offsetWidth || offsetHeight || getClientRects().length`, and
`clickRaises`/`dispatchRaises` model whether the native `click()` call and
the synthesized-MouseEvent fallback raise (`clickErrorMsg` being the
raised message). -/
structure DomElement where
  tagName : String := ""
  role : Option String := none
  tabindex : Option String := none
  dataAutomationId : Option String := none
  classes : List String := []
  textContent : String := ""
  ariaLabel : Option String := none
  visible : Bool := true
  matchedBy : List String := []
  clickRaises : Bool := false
  dispatchRaises : Bool := false
  clickErrorMsg : String := ""
deriving Repr, DecidableEq

/-- `document.querySelectorAll(sel)` through the matching oracle, in
document order. -/
def querySelectorAll (dom : List DomElement) (sel : String) : List DomElement :=
  dom.filter (fun el => el.matchedBy.contains sel)

/-- The generic "option-like" catalogue query of content.js line 597. -/
def optionLikeQuery : String :=
  "[role=\"option\"], li, [data-automation-id*=\"option\"], .dropdown-option, [role=\"menuitem\"]"

/-- The dialog query of content.js line 1081. -/
def dialogQuery : String :=
  "[role=\"dialog\"], [aria-modal=\"true\"], .wd-popup"

/-- The interactive-elements query of the loose text search
(content.js line 670). -/
def interactiveQuery : String :=
  "button, a, div[role=\"button\"], [role=\"menuitem\"], .gwt-Label, [data-automation-id]"

/-- The navigation query of `waitForElement`'s Academics fallback
(content.js line 1170). -/
def navQuery : String :=
  "nav a, [role=\"navigation\"] [role=\"menuitem\"], .navigation button"

/-! ## Element resolution (content.js `clickElement` lines 470-721 and
`waitForElement` lines 1030-1293) -/

/-- Compound-selector handling of content.js lines 492-499: a selector
containing a comma is split into trimmed alternatives. -/
def splitSelectors (selector : String) : List String :=
  if strIncludes selector "," then (selector.splitOn ",").map jsTrim
  else [selector]

/-- `allSelectors` of content.js line 503: the (split) primary selector
followed by the fallback selectors. -/
def allSelectors (step : Step) : List String :=
  splitSelectors step.selector ++ step.fallback_selectors

/-- The interactivity test of the Academics special handling
(content.js lines 522-527). -/
def isInteractiveAcademics (el : DomElement) : Bool :=
  el.tagName == "BUTTON" || el.tagName == "A" || el.role.isSome
    || el.tabindex.isSome || el.dataAutomationId.isSome

/-- Special handling for descriptions containing "Academics"
(content.js lines 508-552): filter all elements by text/visibility/
interactivity and prefer a button-like best match. -/
def academicsTier (dom : List DomElement) (description : String) : Option DomElement :=
  if strIncludes description "Academics" then
    let cands := dom.filter (fun el =>
      strIncludes (jsTrim el.textContent) "Academic" && el.visible
        && isInteractiveAcademics el)
    match cands with
    | [] => none
    | c :: _ =>
      some ((cands.find? (fun el =>
        el.tagName == "BUTTON" || el.role == some "button"
          || el.tabindex == some "0")).getD c)
  else none

/-- One selector pass of the `text_content` tier (content.js lines
559-586): the selector's matches filtered by trimmed-text containment of
the hint, first match kept. -/
def bySelectorWithText (dom : List DomElement) (hint : String)
    (sel : String) : Option DomElement :=
  let els := querySelectorAll dom sel
  if els.isEmpty then none
  else (els.filter (fun e => strIncludes (jsTrim e.textContent) hint)).head?

/-- The broad-search filter of the `text_content` tier (content.js lines
602-609): trimmed text contains the hint and is shorter than twice the
hint. -/
def textHintPred (hint : String) (e : DomElement) : Bool :=
  strIncludes (jsTrim e.textContent) hint
    && decide ((jsTrim e.textContent).length < hint.length * 2)

/-- The `text_content` tier (content.js lines 554-617): first each
selector's matches filtered by text containment, then the broad
option-like catalogue filtered by containment plus the
`elText.length < text_content.length * 2` bound. -/
def textContentTier (dom : List DomElement) (sels : List String)
    (hint : String) : Option DomElement :=
  match sels.findSome? (bySelectorWithText dom hint) with
  | some el => some el
  | none =>
    ((querySelectorAll dom optionLikeQuery).filter (textHintPred hint)).head?

/-- The plain selector loop of content.js lines 620-648: first selector
with at least one match wins, first match used. -/
def regularTier (dom : List DomElement) (sels : List String) : Option DomElement :=
  sels.findSome? (fun sel => (querySelectorAll dom sel).head?)

/-- The fold of content.js lines 1136-1153: prefer buttons, otherwise the
element with the shortest `textContent` (JS `reduce` with `null` seed). -/
def reduceSmallest (els : List DomElement) : Option DomElement :=
  els.foldl (fun acc cur =>
    if cur.tagName == "BUTTON" || cur.role == some "button" then some cur
    else
      match acc with
      | none => some cur
      | some a =>
        if cur.textContent.length < a.textContent.length then some cur
        else some a) none

/-- `waitForElement`'s Academics navigation fallback
(content.js lines 1168-1182). -/
def academicsNavFallback (dom : List DomElement) (sels : List String) : Option DomElement :=
  if sels.any (fun s => strIncludes (jsLower s) "academic") then
    (querySelectorAll dom navQuery).find? (fun el => strIncludes el.textContent "Acad")
  else none

/-- `checkForElement` of `waitForElement` (content.js lines 1047-1205):
the selector loop, then the keyword-derived text search (the keywords are
extracted from the joined selector string, not from `text_content`), the
dialog shortcut, and the Academics navigation fallback. -/
def checkForElement (dom : List DomElement) (sels : List String) : Option DomElement :=
  match sels.findSome? (fun sel => (querySelectorAll dom sel).head?) with
  | some el => some el
  | none =>
    let selectorString := String.intercalate " " sels
    let hasFCS := strIncludes selectorString "Find Course Sections"
    let hasAcademic := strIncludes selectorString "Academic"
    let targetTexts : List String :=
      if hasFCS then ["Find Course Sections"]
      else if hasAcademic then ["Academic", "Academics"]
      else []
    let dialogHit : Option DomElement :=
      if !hasFCS && !hasAcademic
          && (strIncludes selectorString "dialog" || strIncludes selectorString "editPopup") then
        (querySelectorAll dom dialogQuery).head?
      else none
    match dialogHit with
    | some d => some d
    | none =>
      if targetTexts.isEmpty then academicsNavFallback dom sels
      else
        let withText := dom.filter (fun el =>
          el.visible && targetTexts.any (fun tgt =>
            strIncludes el.textContent tgt
              && el.textContent.length < tgt.length * 5))
        if withText.isEmpty then academicsNavFallback dom sels
        else
          let isAcademicsSearch := sels.any (fun s => strIncludes (jsLower s) "academic")
          let clickable := withText.filter (fun el =>
            el.tagName == "BUTTON" || el.role == some "button"
              || el.tabindex == some "0" || el.tagName == "A")
          if isAcademicsSearch && !clickable.isEmpty then clickable.head?
          else
            match reduceSmallest withText with
            | some e => some e
            | none => withText.head?

/-- Result of a bounded element wait: the element (or `none`) and the
elapsed milliseconds. -/
structure WaitOutcome where
  element : Option DomElement
  elapsed : Nat
deriving Repr, DecidableEq

/-- `waitForElement(selectors, timeout)` (content.js lines 1030-1293)
evaluated against the static DOM.  The wait re-runs `checkForElement`
immediately, on every (throttled) DOM mutation and on a 100 ms interval;
with no mutations every re-check equals the immediate check, so the
promise resolves with the element at once or with `null` when the final
timeout fires — all observers and timers being cleared on both paths. -/
def waitForElement (dom : List DomElement) (sels : List String) (timeout : Nat) : WaitOutcome :=
  match checkForElement dom sels with
  | some el => ⟨some el, 0⟩
  | none => ⟨none, timeout⟩

/-- The loose description-based search of content.js lines 659-691:
strip the `/button in.+$/i` boilerplate and match the interactive
catalogue case-insensitively on text or accessible label. -/
def looseTier (dom : List DomElement) (description : String) : Option DomElement :=
  if description != "" then
    let textToFind := stripButtonIn description
    let cands := querySelectorAll dom interactiveQuery
    (cands.filter (fun el =>
      let t := if el.textContent != "" then el.textContent else el.ariaLabel.getD ""
      strIncludes (jsLower t) (jsLower textToFind))).head?
  else none

/-- Result of the full resolution pipeline: the element found (if any)
and the elapsed milliseconds before the pipeline produced it
(0 when an immediate tier hits, the full timeout when the bounded wait
had to expire first). -/
structure ResolveOutcome where
  element : Option DomElement
  elapsed : Nat
deriving Repr, DecidableEq

/-- The immediate (pre-wait) tiers of `clickElement`'s resolution
(content.js lines 487-648), in source order: Academics special handling,
the `text_content` tier (only for a truthy hint), then the plain
selector loop. -/
def findElementImmediate (dom : List DomElement) (step : Step) : Option DomElement :=
  match academicsTier dom step.description with
  | some el => some el
  | none =>
    match
      (match step.text_content with
       | some hint =>
         if hint != "" then textContentTier dom (allSelectors step) hint else none
       | none => none) with
    | some el => some el
    | none => regularTier dom (allSelectors step)

/-- The element-resolution pipeline of `clickElement`
(content.js lines 487-721), in source order: the immediate tiers, the
bounded `waitForElement` (default timeout 5000 ms from the destructuring
at line 475), and the loose text search; `none` after all tiers
corresponds to the `Element not found` throw. -/
def findElement (dom : List DomElement) (step : Step) : ResolveOutcome :=
  match findElementImmediate dom step with
  | some el => ⟨some el, 0⟩
  | none =>
    match (waitForElement dom (allSelectors step) (step.timeout.getD 5000)).element with
    | some el => ⟨some el, 0⟩
    | none =>
      match looseTier dom step.description with
      | some el => ⟨some el, step.timeout.getD 5000⟩
      | none => ⟨none, step.timeout.getD 5000⟩

/-! ## Step execution (content.js `clickElement` lines 723-901) -/

/-- The structured per-element result pushed by the executor
(success results of `clickElement`, failure records of
`handleElementsToClick`, and the `wait` results).  The ISO timestamp and
the `elementInfo` diagnostic block carry no verified content and are
elided. -/
structure ClickResult where
  description : String := ""
  success : Bool := false
  error : Option String := none
  action : Option String := none
  duration : Option Nat := none
deriving Repr, DecidableEq

/-- The pre-click wait computation of content.js lines 732-742:
descriptions containing "Start Date" or "input field" get at least
2000 ms, all others exactly `wait_before_click`. -/
def actualWaitTime (description : String) (wait_before_click : Nat) : Nat :=
  if strIncludes description "Start Date" || strIncludes description "input field" then
    max wait_before_click 2000
  else wait_before_click

/-- The activation attempt of content.js lines 752-887: a native
`click()` (through whichever of the Academics / link / plain variants
applies — they differ in side messages and a URL-change wait, not in
success or failure) with one synthesized-MouseEvent fallback; when both
raise, the original error is re-thrown. -/
def attemptClick (el : DomElement) : Except String Unit :=
  if el.clickRaises then
    if el.dispatchRaises then Except.error el.clickErrorMsg else Except.ok ()
  else Except.ok ()

deriving instance DecidableEq for Except

/-- Result of `clickElement`: the structured result or the thrown error,
plus the milliseconds actually waited before the activation attempt. -/
structure ClickOutcome where
  result : Except String ClickResult
  waited : Nat
deriving Repr, DecidableEq

/-- `clickElement(elementInfo)` (content.js lines 470-901): resolve the
element through `findElement`; throw `Element ... not found` when
resolution fails; otherwise scroll, apply the pre-click wait, and attempt
activation. -/
def clickElement (dom : List DomElement) (elementInfo : Step) : ClickOutcome :=
  let description := elementInfo.description
  let timeout := elementInfo.timeout.getD 5000
  match (findElement dom elementInfo).element with
  | none =>
    ⟨Except.error ("Element \"" ++ description ++ "\" not found after "
        ++ toString timeout ++ "ms"), 0⟩
  | some el =>
    let waited := actualWaitTime description (elementInfo.wait_before_click.getD 0)
    match attemptClick el with
    | Except.ok _ =>
      ⟨Except.ok { description := description, success := true }, waited⟩
    | Except.error e => ⟨Except.error e, waited⟩

/-! ## Click batch (content.js `handleElementsToClick` lines 397-447 and
the message listener lines 345-394) -/

/-- Result of one `handleElementsToClick` call: the value returned or the
error thrown, plus the descriptions of the elements the loop actually
entered (in order) — the observable "DOM was touched for this step"
trace. -/
structure ClickBatchOutcome where
  outcome : Except String (List ClickResult)
  attempted : List String
deriving Repr

/-- The `for (const elementInfo of elementsToClick)` loop of
`handleElementsToClick` (content.js lines 404-444): `wait` actions
succeed without touching the DOM; click failures are recorded as
structured results and the loop continues — unless the element is
`critical`, in which case the loop re-throws and the collected results
are discarded. -/
def clickLoop (dom : List DomElement) : List Step → ClickBatchOutcome
  | [] => ⟨Except.ok [], []⟩
  | e :: rest =>
    if e.action == some "wait" then
      let r : ClickResult :=
        { description := e.description, success := true,
          action := some "wait", duration := e.duration }
      let out := clickLoop dom rest
      ⟨(match out.outcome with
        | Except.ok rs => Except.ok (r :: rs)
        | Except.error err => Except.error err),
       e.description :: out.attempted⟩
    else
      match (clickElement dom e).result with
      | Except.ok r =>
        let out := clickLoop dom rest
        ⟨(match out.outcome with
          | Except.ok rs => Except.ok (r :: rs)
          | Except.error err => Except.error err),
         e.description :: out.attempted⟩
      | Except.error msg =>
        if e.critical then
          ⟨Except.error ("Critical element click failed: " ++ msg), [e.description]⟩
        else
          let failR : ClickResult :=
            { description := e.description, success := false, error := some msg }
          let out := clickLoop dom rest
          ⟨(match out.outcome with
            | Except.ok rs => Except.ok (failR :: rs)
            | Except.error err => Except.error err),
           e.description :: out.attempted⟩

/-- `handleElementsToClick(elementsToClick)` (content.js lines 397-447):
a missing or empty list throws `No elements to click specified` before
any DOM interaction. -/
def handleElementsToClick (dom : List DomElement)
    (elementsToClick : Option (List Step)) : ClickBatchOutcome :=
  match elementsToClick with
  | none => ⟨Except.error "No elements to click specified", []⟩
  | some els =>
    if els.isEmpty then ⟨Except.error "No elements to click specified", []⟩
    else clickLoop dom els

/-- The completion notification sent back to the background script by the
`AUTOMATION_CLICK` handler (content.js lines 350-368). -/
inductive Notification where
  | automationCompleted : List ClickResult → Notification
  | automationFailed : String → Notification
deriving Repr

/-- The `AUTOMATION_CLICK` message listener (content.js lines 350-370):
acknowledge receipt, run `handleElementsToClick`, and report
`AUTOMATION_COMPLETED` with the results or `AUTOMATION_FAILED` with the
thrown error's message. -/
def contentOnAutomationClick (dom : List DomElement)
    (elementsToClick : Option (List Step)) : Notification :=
  match (handleElementsToClick dom elementsToClick).outcome with
  | Except.ok rs => Notification.automationCompleted rs
  | Except.error e => Notification.automationFailed e

/-- Per-step success the executor reports for a step when run alone:
either a `wait` action or a click whose resolution and activation
succeed.  Used to phrase "all other steps succeed" hypotheses. -/
def stepOkB (dom : List DomElement) (s : Step) : Bool :=
  s.action == some "wait"
    || (match (clickElement dom s).result with
        | Except.ok _ => true
        | Except.error _ => false)

/-- The structured result `handleElementsToClick` records for one step
(content.js lines 409-443): the `wait` result, the `clickElement` result,
or the failure record. -/
def resultOf (dom : List DomElement) (s : Step) : ClickResult :=
  if s.action == some "wait" then
    { description := s.description, success := true,
      action := some "wait", duration := s.duration }
  else
    match (clickElement dom s).result with
    | Except.ok r => r
    | Except.error e =>
      { description := s.description, success := false, error := some e }

/-! ## Orchestrator (background.js) -/

/-- `limitSetSize(set, maxSize = 20)` (background.js lines 19-24): once
the set exceeds `maxSize`, its oldest entry is evicted. -/
def limitSetSize (ids : List String) (maxSize : Nat) : List String :=
  if maxSize < ids.length then ids.drop 1 else ids

/-- Recording a completed session id (background.js lines 234-238):
`Set.add` (no-op when already present) followed by `limitSetSize`. -/
def addCompletedSession (ids : List String) (sid : String) : List String :=
  limitSetSize (if ids.contains sid then ids else ids ++ [sid]) 20

/-- The multi-step core of `handleCurrentStep` (background.js lines
339-441), as a function of the step index and executed list read from the
record.  The source recursion (line 380) only re-enters while
`currentStepIndex + 1 < steps.length` and increments the index each time,
so its depth is bounded by `steps.length`; the explicit `fuel` argument
(always instantiated with `steps.length + 1`) makes that recursion
structural.  Branches:

* index already in `executedSteps` (lines 355-381): advance the stored
  index — writing the record before recursing — or clear the record when
  past the last step;
* index in range and not yet executed (lines 384-410): append the index
  to `executedSteps`, persist the advanced record when this is not the
  last step (the write happens before `chrome.tabs.sendMessage`), then
  dispatch the step; for the last step the record is removed in the send
  callback, i.e. only when the message is acknowledged;
* index past the end (lines 411-416): clear the record. -/
def multiStepLoop (instruction : Instruction) (now : Nat) (sendOk : Bool) :
    Nat → Option PendingAutomation → Nat → List Nat → StepOutcome
  | 0, storage, _, _ => ⟨storage, [], [], false⟩
  | _fuel + 1, storage, cur, executed =>
    let N := instruction.steps.length
    if executed.contains cur then
      if N ≤ cur + 1 then
        ⟨none, [Event.removeStorage], [], true⟩
      else
        let newRec : PendingAutomation :=
          { instruction := instruction, currentStepIndex := cur + 1,
            lastUpdated := now, executedSteps := executed }
        let out := multiStepLoop instruction now sendOk _fuel (some newRec) (cur + 1) executed
        ⟨out.storage, Event.setStorage newRec :: out.events, out.dispatched, out.clearsRunning⟩
    else if cur < N then
      let executed' := executed ++ [cur]
      if cur + 1 < N then
        let newRec : PendingAutomation :=
          { instruction := instruction, currentStepIndex := cur + 1,
            lastUpdated := now, executedSteps := executed' }
        ⟨some newRec, [Event.setStorage newRec, Event.dispatchStep cur], [cur], false⟩
      else
        if sendOk then
          ⟨none, [Event.dispatchStep cur, Event.removeStorage], [cur], true⟩
        else
          ⟨storage, [Event.dispatchStep cur], [cur], false⟩
    else
      ⟨none, [Event.removeStorage], [], true⟩

/-- `handleCurrentStep(tabId, instruction)` (background.js lines 329-448).
For `navigate_and_click` the whole `elements_to_click` list is dispatched
as one request and the (non-existent) record removed on acknowledgement;
for `multi_step_navigation` the current index and executed list are read
from storage (defaulting to a fresh index-0 record) and handed to
`multiStepLoop`; any other action sends a request with an undefined list
and leaves the record alone. -/
def handleCurrentStep (instruction : Instruction) (storage : Option PendingAutomation)
    (now : Nat) (sendOk : Bool) : StepOutcome :=
  if instruction.action == "navigate_and_click" then
    if sendOk then ⟨none, [Event.dispatchList, Event.removeStorage], [], true⟩
    else ⟨storage, [Event.dispatchList], [], false⟩
  else if instruction.action == "multi_step_navigation" then
    let pa := storage.getD
      { instruction := instruction, currentStepIndex := 0,
        lastUpdated := now, executedSteps := [] }
    multiStepLoop instruction now sendOk (instruction.steps.length + 1)
      storage pa.currentStepIndex pa.executedSteps
  else
    ⟨storage, [Event.dispatchList], [], false⟩

/-- A serialized sequence of resume triggers: each trigger invokes
`handleCurrentStep` on the current record (as the `tabs.onUpdated`
listener, the `CONTENT_SCRIPT_LOADED` handler and `triggerAutomation`'s
resume branch all do) until the record is gone or `fuel` triggers have
fired.  Returns the concatenated dispatched indices and the final
record. -/
def resumeRun (instruction : Instruction) (now : Nat) (sendOk : Bool) :
    Nat → Option PendingAutomation → List Nat × Option PendingAutomation
  | 0, storage => ([], storage)
  | _ + 1, none => ([], none)
  | fuel + 1, some rec =>
    let out := handleCurrentStep instruction (some rec) now sendOk
    let rest := resumeRun instruction now sendOk fuel out.storage
    (out.dispatched ++ rest.1, rest.2)

/-- The `AUTOMATION_FAILED` message case (background.js lines 137-139)
and `handleAutomationFailed` (lines 174-177): the run lock is cleared and
nothing else happens — in particular the persisted record is not
touched. -/
def onAutomationFailedMsg (st : AutomationState) (storage : Option PendingAutomation) :
    AutomationState × Option PendingAutomation :=
  ({ st with isRunning := false }, storage)

/-- The `AUTOMATION_COMPLETED` message case (background.js lines 133-135,
168-171): identical effect. -/
def onAutomationCompletedMsg (st : AutomationState) (storage : Option PendingAutomation) :
    AutomationState × Option PendingAutomation :=
  ({ st with isRunning := false }, storage)

/-- The `chrome.tabs.onUpdated` completion listener (background.js lines
451-478): with a persisted record present, a record whose `lastUpdated`
is more than 5 minutes old is removed without resuming; otherwise the
record is resumed through `handleCurrentStep` after the settle delay. -/
def onTabUpdatedComplete (st : AutomationState) (storage : Option PendingAutomation)
    (now : Nat) (sendOk : Bool) : BgOutcome :=
  match storage with
  | none => ⟨st, none, []⟩
  | some pa =>
    if 5 * 60 * 1000 < now - pa.lastUpdated then
      ⟨st, none, [Event.removeStorage]⟩
    else
      let out := handleCurrentStep pa.instruction (some pa) now sendOk
      ⟨{ st with isRunning := st.isRunning && !out.clearsRunning }, out.storage, out.events⟩

/-- `executeAutomation(instruction)` (background.js lines 246-326):
reject unsupported actions; skip navigation when the tab is already at
(or was just navigated to) the target URL and dispatch directly;
otherwise set the navigation flags, persist the fresh index-0 record for
`multi_step_navigation`, navigate, and on load completion clear the flag
and dispatch the current step.  A navigation timeout clears the flag and
throws `Page load timeout`. -/
def executeAutomation (instr : Instruction) (st : AutomationState)
    (storage : Option PendingAutomation) (ctx : PollCtx) : ExecOutcome :=
  if instr.action != "navigate_and_click" && instr.action != "multi_step_navigation" then
    ⟨st, storage, [], some ("Unsupported action: " ++ instr.action)⟩
  else if ctx.currentUrl == instr.target_url
      || (st.lastNavigationUrl == some instr.target_url
          && ctx.now - st.lastRunTime < 10000) then
    let out := handleCurrentStep instr storage ctx.now ctx.sendOk
    ⟨{ st with isRunning := st.isRunning && !out.clearsRunning }, out.storage, out.events, none⟩
  else
    let st1 := { st with
      navigationInProgress := true,
      lastNavigationUrl := some instr.target_url }
    let initRec : PendingAutomation :=
      { instruction := instr, currentStepIndex := 0,
        lastUpdated := ctx.now, executedSteps := [] }
    let isMulti := instr.action == "multi_step_navigation"
    let storage1 := if isMulti then some initRec else storage
    let evs1 := (if isMulti then [Event.setStorage initRec] else [])
        ++ [Event.navigate instr.target_url]
    if ctx.loadOk then
      let st2 := { st1 with navigationInProgress := false }
      let out := handleCurrentStep instr storage1 ctx.now ctx.sendOk
      ⟨{ st2 with isRunning := st2.isRunning && !out.clearsRunning },
       out.storage, evs1 ++ out.events, none⟩
    else
      ⟨{ st1 with navigationInProgress := false }, storage1, evs1,
       some "Page load timeout"⟩

/-- `triggerAutomation()` (background.js lines 180-243): skip while the
run lock is held; if a persisted record exists, resume it (regardless of
its age) under the run lock; otherwise enforce the 5 s cool-down, fetch
the next instruction, discard it when its `session_id` is already in the
completed-session set, and otherwise execute it and record the session
id. -/
def triggerAutomation (st : AutomationState) (storage : Option PendingAutomation)
    (ctx : PollCtx) : BgOutcome :=
  if st.isRunning then ⟨st, storage, []⟩
  else
    match storage with
    | some pa =>
      let out := handleCurrentStep pa.instruction (some pa) ctx.now ctx.sendOk
      ⟨{ st with isRunning := false }, out.storage, out.events⟩
    | none =>
      if ctx.now - st.lastRunTime < 5000 then ⟨st, storage, []⟩
      else
        let st1 := { st with isRunning := true, lastRunTime := ctx.now }
        match ctx.fetched with
        | none => ⟨{ st1 with isRunning := false }, storage, [Event.fetch]⟩
        | some instr =>
          let dedup :=
            match instr.session_id with
            | some sid => sid != "" && st1.completedSessionIds.contains sid
            | none => false
          if dedup then ⟨{ st1 with isRunning := false }, storage, [Event.fetch]⟩
          else
            let ex := executeAutomation instr st1 storage ctx
            match ex.error with
            | some _ => ⟨{ ex.state with isRunning := false }, ex.storage,
                Event.fetch :: ex.events⟩
            | none =>
              let st2 :=
                match instr.session_id with
                | some sid =>
                  if sid != "" then
                    { ex.state with completedSessionIds :=
                        addCompletedSession ex.state.completedSessionIds sid }
                  else ex.state
                | none => ex.state
              ⟨st2, ex.storage, Event.fetch :: ex.events⟩

/-- `pollForAutomation()` (background.js lines 59-108): skip when the run
lock or processing lock is held, when a navigation is in progress, when a
persisted record exists (the record is left untouched — no age check
here), when the current URL is a known target, or within the 30 s
cool-down; otherwise fall through to `triggerAutomation`.  The
processing lock is taken and released within the call, so its net effect
is nil. -/
def pollForAutomation (st : AutomationState) (storage : Option PendingAutomation)
    (ctx : PollCtx) : BgOutcome :=
  if st.isRunning || st.processingLock then ⟨st, storage, []⟩
  else if st.navigationInProgress then ⟨st, storage, []⟩
  else if storage.isSome then ⟨st, storage, []⟩
  else if strIncludes ctx.currentUrl "login.stevens.edu/app/UserHome"
      || strIncludes ctx.currentUrl "workday"
      || st.lastNavigationUrl == some ctx.currentUrl then ⟨st, storage, []⟩
  else if ctx.now - st.lastRunTime < 30000 then ⟨st, storage, []⟩
  else triggerAutomation st storage ctx

/-- The step indices written to storage by an event trace, in order. -/
def storedIndices (events : List Event) : List Nat :=
  events.filterMap (fun e =>
    match e with
    | Event.setStorage r => some r.currentStepIndex
    | _ => none)

/-! ## Concrete inputs used by witnesses and counterexamples -/

/-- An empty document. -/
def emptyDom : List DomElement := []

/-- A generic visible container holding text; it matches none of the
code's literal catalogue queries (a bare `span` is not option-like and
not in the interactive catalogue) and no step selector. -/
def plainTextEl : DomElement :=
  { tagName := "SPAN", textContent := "Submit order" }

/-- One-element document for the C5 counterexample. -/
def c5Dom : List DomElement := [plainTextEl]

/-- A step whose selector matches nothing and whose `text_content` hint
is the visible text of `plainTextEl`. -/
def c5Step : Step :=
  { description := "Confirm", selector := "#confirm-btn",
    text_content := some "Submit order" }

/-- A visible list item carrying the hint text; as an `li` it is matched
by the option-like catalogue query. -/
def optionEl : DomElement :=
  { tagName := "LI", textContent := "OK", matchedBy := [optionLikeQuery] }

/-- One-element document for the C5 amended-claim witness. -/
def c5WitnessDom : List DomElement := [optionEl]

/-- A step whose selector matches nothing and whose `text_content` hint
is the (short) text of `optionEl`. -/
def c5WitnessStep : Step :=
  { description := "Choose OK", selector := "#missing",
    text_content := some "OK" }

/-- A search input resolved by its selector, used for the C9 witness. -/
def startDateEl : DomElement :=
  { tagName := "INPUT", matchedBy := ["#start-date"] }

def c9Dom : List DomElement := [startDateEl]

/-- A click step whose description names the Start Date input field and
which carries no `wait_before_click`. -/
def c9Step : Step :=
  { description := "Start Date input field", selector := "#start-date" }

/-- A clickable element resolved by `#ok`, used for succeeding steps in
the batch witnesses. -/
def okEl : DomElement :=
  { tagName := "BUTTON", textContent := "Go", matchedBy := ["#ok"] }

def batchDom : List DomElement := [okEl]

/-- A `wait` step. -/
def waitStepDemo : Step :=
  { description := "Pause", action := some "wait", duration := some 500 }

/-- A non-critical click step whose selector resolves nothing. -/
def failStepDemo : Step :=
  { description := "Click missing", selector := "#missing" }

/-- A click step resolved by `okEl`. -/
def okStepDemo : Step :=
  { description := "Click go", selector := "#ok" }

/-- A critical click step whose selector resolves nothing. -/
def critStepDemo : Step :=
  { description := "Open admin panel", selector := "#admin", critical := true }

/-- A three-step `multi_step_navigation` instruction. -/
def demoInstr3 : Instruction :=
  { action := "multi_step_navigation", target_url := "https://example/app",
    steps := [ { description := "step zero", selector := "#s0" },
               { description := "step one", selector := "#s1" },
               { description := "step two", selector := "#s2" } ],
    session_id := some "sess-1" }

/-- The persisted record as it stands right after step 0 of `demoInstr3`
was dispatched (and, in the C1 scenario, failed): the index was already
advanced past step 0 before the dispatch. -/
def demoRecAfterStep0 : PendingAutomation :=
  { instruction := demoInstr3, currentStepIndex := 1, lastUpdated := 1000,
    executedSteps := [0] }

/-- A two-step `multi_step_navigation` instruction. -/
def demoInstr2 : Instruction :=
  { action := "multi_step_navigation", target_url := "https://example/app2",
    steps := [ { description := "a", selector := "#a" },
               { description := "b", selector := "#b" } ],
    session_id := some "sess-2" }

/-- A persisted record whose `lastUpdated` lies more than 5 minutes
before the observation clock of `ctxExpired`. -/
def expiredRec : PendingAutomation :=
  { instruction := demoInstr2, currentStepIndex := 0, lastUpdated := 0,
    executedSteps := [] }

/-- The background state with all locks clear. -/
def idleState : AutomationState := {}

/-- The background state while the run lock is held. -/
def runningState : AutomationState := { isRunning := true }

/-- Observation context 301 s after `expiredRec` was last updated, on an
unrelated page. -/
def ctxExpired : PollCtx :=
  { currentUrl := "https://somewhere/else", now := 301000 }

/-- State for the C6 witness: `sess-1` already completed. -/
def c6State : AutomationState := { completedSessionIds := ["sess-1"] }

/-- Context for the C6 witness: the fetch returns `demoInstr3` (whose
`session_id` is `sess-1`) well past the cool-down. -/
def c6Ctx : PollCtx := { now := 10000, fetched := some demoInstr3 }

/-- The record `handleCurrentStep` persists just before dispatching the
current (non-final) step: index advanced by one, index appended to
`executedSteps`, `lastUpdated` refreshed (background.js lines 394-407).
Named here only to abbreviate theorem statements. -/
def advancedRec (instruction : Instruction) (rec : PendingAutomation) (now : Nat) :
    PendingAutomation :=
  { instruction := instruction, currentStepIndex := rec.currentStepIndex + 1,
    lastUpdated := now, executedSteps := rec.executedSteps ++ [rec.currentStepIndex] }

/-- The record `executeAutomation` persists when a `multi_step_navigation`
run begins (background.js lines 279-285; `executedSteps` is supplied by
the `|| []` read on first access).  Named to abbreviate statements. -/
def initialRec (instruction : Instruction) (now : Nat) : PendingAutomation :=
  { instruction := instruction, currentStepIndex := 0, lastUpdated := now,
    executedSteps := [] }

/-- The record the skip branch of `handleCurrentStep` persists when the
current index was already executed (background.js lines 370-377): index
advanced, executed list unchanged.  Named to abbreviate statements. -/
def skipAdvancedRec (instruction : Instruction) (now cur : Nat)
    (executed : List Nat) : PendingAutomation :=
  { instruction := instruction, currentStepIndex := cur + 1, lastUpdated := now,
    executedSteps := executed }

/-- A three-step `multi_step_navigation` instruction whose middle step is
the unresolvable (non-critical) `failStepDemo`. -/
def c7Instr : Instruction :=
  { action := "multi_step_navigation", target_url := "https://example/app",
    steps := [waitStepDemo, failStepDemo, okStepDemo],
    session_id := some "sess-7" }

/-! ## Helper lemmas -/

/-- `handleCurrentStep` on a multi-step record whose current index is not
yet executed and not the last step: the advanced record (index + 1, index
appended to `executedSteps`) is persisted first, then the step is
dispatched. -/
theorem handleCurrentStep_mid (instruction : Instruction) (rec : PendingAutomation)
    (now : Nat) (sendOk : Bool)
    (hact : instruction.action = "multi_step_navigation")
    (hskip : rec.executedSteps.contains rec.currentStepIndex = false)
    (hmid : rec.currentStepIndex + 1 < instruction.steps.length) :
    handleCurrentStep instruction (some rec) now sendOk
      = ⟨some (advancedRec instruction rec now),
         [Event.setStorage (advancedRec instruction rec now),
          Event.dispatchStep rec.currentStepIndex],
         [rec.currentStepIndex], false⟩ := by
  have hlt : rec.currentStepIndex < instruction.steps.length := Nat.lt_of_succ_lt hmid
  have hmem : rec.currentStepIndex ∉ rec.executedSteps := by simpa using hskip
  simp [handleCurrentStep, hact, multiStepLoop, hmem, hlt, hmid, advancedRec]

/-- `handleCurrentStep` on a multi-step record whose current index is the
(not yet executed) last step, with the dispatch acknowledged: the step is
dispatched and then the record removed. -/
theorem handleCurrentStep_last (instruction : Instruction) (rec : PendingAutomation)
    (now : Nat)
    (hact : instruction.action = "multi_step_navigation")
    (hskip : rec.executedSteps.contains rec.currentStepIndex = false)
    (hlt : rec.currentStepIndex < instruction.steps.length)
    (hlast : ¬ rec.currentStepIndex + 1 < instruction.steps.length) :
    handleCurrentStep instruction (some rec) now true
      = ⟨none, [Event.dispatchStep rec.currentStepIndex, Event.removeStorage],
         [rec.currentStepIndex], true⟩ := by
  have hmem : rec.currentStepIndex ∉ rec.executedSteps := by simpa using hskip
  simp [handleCurrentStep, hact, multiStepLoop, hmem, hlt, hlast]

/-- `handleCurrentStep` on a multi-step record whose current index is past
the last step and not marked executed: the record is removed without any
dispatch. -/
theorem handleCurrentStep_done (instruction : Instruction) (rec : PendingAutomation)
    (now : Nat) (sendOk : Bool)
    (hact : instruction.action = "multi_step_navigation")
    (hskip : rec.executedSteps.contains rec.currentStepIndex = false)
    (hge : ¬ rec.currentStepIndex < instruction.steps.length) :
    handleCurrentStep instruction (some rec) now sendOk
      = ⟨none, [Event.removeStorage], [], true⟩ := by
  have hmem : rec.currentStepIndex ∉ rec.executedSteps := by simpa using hskip
  simp [handleCurrentStep, hact, multiStepLoop, hmem, hge]

/-! ## C4 -/

/-- C4 counterexample.  With the record at index 1 of the three-step
instruction, one `handleCurrentStep` call first persists the advanced
record (`currentStepIndex := 2`, `executedSteps := [0, 1]`) and only then
dispatches step 1: the event trace places the storage mutation strictly
before the `AUTOMATION_CLICK` dispatch of step 1, so the record is
advanced for a step whose execution result cannot yet have arrived —
contradicting the claim that the record is mutated only after the current
step's result has been received. -/
theorem c4_counterexample :
    (handleCurrentStep demoInstr3 (some demoRecAfterStep0) 50 true).events
      = [Event.setStorage (advancedRec demoInstr3 demoRecAfterStep0 50),
         Event.dispatchStep 1]
    ∧ (handleCurrentStep demoInstr3 (some demoRecAfterStep0) 50 true).dispatched = [1]
    ∧ (advancedRec demoInstr3 demoRecAfterStep0 50).currentStepIndex = 2
    ∧ (advancedRec demoInstr3 demoRecAfterStep0 50).executedSteps = [0, 1] := by
  exact ⟨rfl, rfl, rfl, rfl⟩

/-- C4 amended: for any non-final step `i` of a `multi_step_navigation`
instruction, `handleCurrentStep` persists the advanced record
(`currentStepIndex := i + 1`, `i` appended to `executedSteps`)
immediately **before** dispatching step `i` — the advance does not await
the step's execution result — and the call dispatches only step `i`;
step `i + 1` is dispatched solely by a later resume invocation. -/
theorem c4_amended_theorem (instruction : Instruction) (rec : PendingAutomation) (now : Nat)
    (hact : instruction.action = "multi_step_navigation")
    (hskip : rec.executedSteps.contains rec.currentStepIndex = false)
    (hmid : rec.currentStepIndex + 1 < instruction.steps.length) :
    (handleCurrentStep instruction (some rec) now true).events
      = [Event.setStorage (advancedRec instruction rec now),
         Event.dispatchStep rec.currentStepIndex]
    ∧ (handleCurrentStep instruction (some rec) now true).dispatched
        = [rec.currentStepIndex] := by
  rw [handleCurrentStep_mid instruction rec now true hact hskip hmid]
  exact ⟨rfl, rfl⟩

/-- C4 amended witness at the concrete three-step instruction. -/
theorem c4_amended_witness :
    (handleCurrentStep demoInstr3 (some demoRecAfterStep0) 60 true).events
      = [Event.setStorage (advancedRec demoInstr3 demoRecAfterStep0 60),
         Event.dispatchStep 1]
    ∧ (handleCurrentStep demoInstr3 (some demoRecAfterStep0) 60 true).dispatched = [1] :=
  c4_amended_theorem demoInstr3 demoRecAfterStep0 60 rfl (by decide) (by decide)

/-! ## C6 -/

/-- C6: a fetched instruction whose `session_id` is already in the
completed-session set is discarded: the run lock ends cleared, the
persisted record stays absent, the dedup set is unchanged, and the only
side effect is the fetch itself — no navigation, no dispatch, no storage
mutation.  (`lastRunTime` is refreshed before the fetch, which the claim
does not constrain.) -/
theorem c6_theorem (st : AutomationState) (ctx : PollCtx) (instr : Instruction) (sid : String)
    (hrun : st.isRunning = false)
    (hcool : 5000 ≤ ctx.now - st.lastRunTime)
    (hfetch : ctx.fetched = some instr)
    (hsid : instr.session_id = some sid)
    (hne : sid ≠ "")
    (hdup : st.completedSessionIds.contains sid = true) :
    triggerAutomation st none ctx
      = ⟨{ st with isRunning := false, lastRunTime := ctx.now }, none, [Event.fetch]⟩ := by
  have hmem : sid ∈ st.completedSessionIds := by simpa using hdup
  obtain ⟨ir, ids, lrt, pol, nav, lnu, pl⟩ := st
  simp only [AutomationState.isRunning] at hrun
  subst hrun
  simp only [AutomationState.completedSessionIds, AutomationState.lastRunTime] at hmem hcool
  simp [triggerAutomation, hfetch, hsid, hmem, Nat.not_lt.mpr hcool, hne]

/-- C6 witness: `sess-1` fetched a second time is discarded with no side
effects beyond the fetch. -/
theorem c6_witness :
    triggerAutomation c6State none c6Ctx
      = ⟨{ c6State with isRunning := false, lastRunTime := c6Ctx.now },
         none, [Event.fetch]⟩ :=
  c6_theorem c6State c6Ctx demoInstr3 "sess-1" rfl (by decide) rfl rfl
    (by decide) (by decide)

/-! ## C9 -/

/-- C9: when `clickElement` resolves its element, the pre-click wait is
`max wait_before_click 2000` (hence at least 2000 ms) for descriptions
containing "Start Date" or "input field", and exactly `wait_before_click`
(0, i.e. an immediate click, when the field is absent) otherwise. -/
theorem c9_theorem (dom : List DomElement) (step : Step)
    (hfound : ((findElement dom step).element).isSome = true) :
    ((strIncludes step.description "Start Date"
        || strIncludes step.description "input field") = true →
      (clickElement dom step).waited = max (step.wait_before_click.getD 0) 2000
        ∧ 2000 ≤ (clickElement dom step).waited)
    ∧ ((strIncludes step.description "Start Date"
        || strIncludes step.description "input field") = false →
      (clickElement dom step).waited = step.wait_before_click.getD 0) := by
  obtain ⟨el, hel⟩ := Option.isSome_iff_exists.mp hfound
  have hw : (clickElement dom step).waited
      = actualWaitTime step.description (step.wait_before_click.getD 0) := by
    unfold clickElement
    rw [hel]
    cases h2 : attemptClick el <;> simp [h2]
  constructor
  · intro hcond
    rw [hw]
    unfold actualWaitTime
    rw [if_pos hcond]
    exact ⟨rfl, Nat.le_max_right _ _⟩
  · intro hcond
    rw [hw]
    unfold actualWaitTime
    rw [if_neg (by simp [hcond])]

/-- C9 witness: the Start Date input field step with no
`wait_before_click` waits `max 0 2000 = 2000` ms. -/
theorem c9_witness :
    (clickElement c9Dom c9Step).waited = max (c9Step.wait_before_click.getD 0) 2000
      ∧ 2000 ≤ (clickElement c9Dom c9Step).waited :=
  (c9_theorem c9Dom c9Step (by decide)).1 (by decide)

/-! ## C10 -/

/-- C10: an `AUTOMATION_CLICK` request with an absent or empty
`elementsToClick` list performs no DOM interaction (no element is even
attempted), rejects with `No elements to click specified`, and the
listener delivers that rejection as an `AUTOMATION_FAILED` notification. -/
theorem c10_theorem (dom : List DomElement) (els : Option (List Step))
    (h : els = none ∨ els = some []) :
    (handleElementsToClick dom els).outcome
        = Except.error "No elements to click specified"
    ∧ (handleElementsToClick dom els).attempted = []
    ∧ contentOnAutomationClick dom els
        = Notification.automationFailed "No elements to click specified" := by
  rcases h with h | h <;> subst h <;>
    exact ⟨rfl, rfl, rfl⟩

/-- C10 witness at the absent list. -/
theorem c10_witness :
    (handleElementsToClick emptyDom none).outcome
        = Except.error "No elements to click specified"
    ∧ (handleElementsToClick emptyDom none).attempted = []
    ∧ contentOnAutomationClick emptyDom none
        = Notification.automationFailed "No elements to click specified" :=
  c10_theorem emptyDom none (Or.inl rfl)

/-- One unfolding of `resumeRun` at a present record. -/
theorem resumeRun_cons (instruction : Instruction) (now : Nat) (sendOk : Bool)
    (fuel : Nat) (rec : PendingAutomation) :
    resumeRun instruction now sendOk (fuel + 1) (some rec)
      = ((handleCurrentStep instruction (some rec) now sendOk).dispatched
           ++ (resumeRun instruction now sendOk fuel
                (handleCurrentStep instruction (some rec) now sendOk).storage).1,
         (resumeRun instruction now sendOk fuel
            (handleCurrentStep instruction (some rec) now sendOk).storage).2) := rfl

/-- Once the record is gone, further resume triggers dispatch nothing. -/
theorem resumeRun_none (instruction : Instruction) (now : Nat) (sendOk : Bool) :
    ∀ fuel, resumeRun instruction now sendOk fuel none = ([], none) := by
  intro fuel
  cases fuel <;> rfl

/-- The canonical resume trace: from a record at index `i` with
`executedSteps = [0, …, i-1]` and `k = steps.length - i` steps remaining,
serialized resume triggers dispatch exactly the indices
`i, i+1, …, steps.length - 1` in order and end with the record removed. -/
theorem resume_range (instruction : Instruction) (now : Nat)
    (hact : instruction.action = "multi_step_navigation") :
    ∀ k fuel i, i + k = instruction.steps.length → k + 1 ≤ fuel →
      resumeRun instruction now true fuel
        (some { instruction := instruction, currentStepIndex := i,
                lastUpdated := now, executedSteps := List.range i })
        = (List.range' i k, none) := by
  intro k
  induction k with
  | zero =>
    intro fuel i hik hf
    obtain ⟨f, rfl⟩ : ∃ f, fuel = f + 1 := ⟨fuel - 1, by omega⟩
    have hskip : (List.range i).contains i = false := by simp
    have hge : ¬ i < instruction.steps.length := by omega
    have hstep := handleCurrentStep_done instruction
        { instruction := instruction, currentStepIndex := i,
          lastUpdated := now, executedSteps := List.range i } now true hact
        (by simpa using hskip) (by simpa using hge)
    simp only [resumeRun_cons, hstep]
    simp [resumeRun_none]
  | succ k ih =>
    intro fuel i hik hf
    obtain ⟨f, rfl⟩ : ∃ f, fuel = f + 1 := ⟨fuel - 1, by omega⟩
    have hskip : (List.range i).contains i = false := by simp
    by_cases hmid : i + 1 < instruction.steps.length
    · have hstep := handleCurrentStep_mid instruction
          { instruction := instruction, currentStepIndex := i,
            lastUpdated := now, executedSteps := List.range i } now true hact
          (by simpa using hskip) (by simpa using hmid)
      have hrec : advancedRec instruction
          { instruction := instruction, currentStepIndex := i,
            lastUpdated := now, executedSteps := List.range i } now
          = { instruction := instruction, currentStepIndex := i + 1,
              lastUpdated := now, executedSteps := List.range (i + 1) } := by
        simp [advancedRec, List.range_succ]
      simp only [resumeRun_cons, hstep]
      rw [hrec]
      rw [ih f (i + 1) (by omega) (by omega)]
      simp [List.range'_succ]
    · have hk : k = 0 := by omega
      subst hk
      have hlt : i < instruction.steps.length := by omega
      have hstep := handleCurrentStep_last instruction
          { instruction := instruction, currentStepIndex := i,
            lastUpdated := now, executedSteps := List.range i } now hact
          (by simpa using hskip) hlt (by simpa using hmid)
      simp only [resumeRun_cons, hstep]
      simp [resumeRun_none, List.range'_succ]

/-- Every index `multiStepLoop` dispatches was absent from the executed
list it started from: an index already present in `executedSteps` is
skipped, never re-dispatched. -/
theorem multiStepLoop_dispatch_not_executed (instruction : Instruction) (now : Nat)
    (sendOk : Bool) :
    ∀ fuel storage cur executed i,
      i ∈ (multiStepLoop instruction now sendOk fuel storage cur executed).dispatched →
      i ∉ executed := by
  intro fuel
  induction fuel with
  | zero =>
    intro storage cur executed i h
    simp [multiStepLoop] at h
  | succ f ih =>
    intro storage cur executed i h
    by_cases hc : cur ∈ executed
    · by_cases hN : instruction.steps.length ≤ cur + 1
      · simp [multiStepLoop, hc, hN] at h
      · simp only [multiStepLoop] at h
        rw [if_pos (by simpa using hc), if_neg (by omega)] at h
        exact ih _ _ _ i h
    · by_cases hcur : cur < instruction.steps.length
      · by_cases hmid2 : cur + 1 < instruction.steps.length
        · simp [multiStepLoop, hc, hcur, hmid2] at h
          exact h ▸ hc
        · cases hs : sendOk <;>
            simp [multiStepLoop, hc, hcur, hmid2, hs] at h <;>
            exact h ▸ hc
      · simp [multiStepLoop, hc, hcur] at h

/-- `multiStepLoop` preserves freedom from duplicates: if the executed
list and any stored record are duplicate-free, so is the executed list of
the record it leaves in storage (an index is appended at most once). -/
theorem multiStepLoop_storage_nodup (instruction : Instruction) (now : Nat)
    (sendOk : Bool) :
    ∀ fuel storage cur executed,
      executed.Nodup →
      (∀ r0, storage = some r0 → r0.executedSteps.Nodup) →
      ∀ r, (multiStepLoop instruction now sendOk fuel storage cur executed).storage = some r →
        r.executedSteps.Nodup := by
  intro fuel
  induction fuel with
  | zero =>
    intro storage cur executed hex hst r hr
    simp only [multiStepLoop] at hr
    exact hst r hr
  | succ f ih =>
    intro storage cur executed hex hst r hr
    by_cases hc : cur ∈ executed
    · by_cases hN : instruction.steps.length ≤ cur + 1
      · simp [multiStepLoop, hc, hN] at hr
      · simp only [multiStepLoop] at hr
        rw [if_pos (by simpa using hc), if_neg (by omega)] at hr
        refine ih _ _ _ hex ?_ r hr
        intro r0 h0
        injection h0 with h0
        rw [← h0]
        exact hex
    · by_cases hcur : cur < instruction.steps.length
      · by_cases hmid2 : cur + 1 < instruction.steps.length
        · simp [multiStepLoop, hc, hcur, hmid2] at hr
          rw [← hr]
          simp [List.nodup_append, hex, hc]
        · cases hs : sendOk
          · simp [multiStepLoop, hc, hcur, hmid2, hs] at hr
            exact hst r hr
          · simp [multiStepLoop, hc, hcur, hmid2, hs] at hr
      · simp [multiStepLoop, hc, hcur] at hr

/-! ## C3 -/

/-- C3: for a `multi_step_navigation` instruction with `N` steps, the
serialized resume run from the freshly persisted record dispatches the
indices `0, …, N-1` exactly once each, in strictly increasing order
(`List.range N`), and ends with the record removed — however many
triggers fire (`fuel` is any bound `≥ N + 1`; once the record is gone
further triggers dispatch nothing, by `resumeRun`'s `none` equation).
Moreover any single `handleCurrentStep` call skips (never re-dispatches)
an index already present in `executedSteps`, and appends an index to
`executedSteps` at most once (duplicate-freedom is preserved). -/
theorem c3_theorem (instruction : Instruction) (now fuel : Nat)
    (hact : instruction.action = "multi_step_navigation")
    (hf : instruction.steps.length + 1 ≤ fuel) :
    resumeRun instruction now true fuel (some (initialRec instruction now))
      = (List.range instruction.steps.length, none)
    ∧ (∀ rec : PendingAutomation,
        ∀ i ∈ (handleCurrentStep instruction (some rec) now true).dispatched,
          i ∉ rec.executedSteps)
    ∧ (∀ rec : PendingAutomation, rec.executedSteps.Nodup →
        ∀ r, (handleCurrentStep instruction (some rec) now true).storage = some r →
          r.executedSteps.Nodup) := by
  refine ⟨?_, ?_, ?_⟩
  · have h := resume_range instruction now hact instruction.steps.length fuel 0
      (by omega) hf
    simpa [initialRec, List.range_eq_range'] using h
  · intro rec i h
    have heq : handleCurrentStep instruction (some rec) now true
        = multiStepLoop instruction now true (instruction.steps.length + 1)
            (some rec) rec.currentStepIndex rec.executedSteps := by
      simp [handleCurrentStep, hact]
    rw [heq] at h
    exact multiStepLoop_dispatch_not_executed instruction now true _ _ _ _ i h
  · intro rec hnd r hr
    have heq : handleCurrentStep instruction (some rec) now true
        = multiStepLoop instruction now true (instruction.steps.length + 1)
            (some rec) rec.currentStepIndex rec.executedSteps := by
      simp [handleCurrentStep, hact]
    rw [heq] at hr
    refine multiStepLoop_storage_nodup instruction now true _ _ _ _ hnd ?_ r hr
    intro r0 h0
    injection h0 with h0
    rw [← h0]
    exact hnd

/-- C3 witness at the three-step instruction with four triggers. -/
theorem c3_witness :
    resumeRun demoInstr3 0 true 4 (some (initialRec demoInstr3 0))
      = (List.range demoInstr3.steps.length, none) :=
  (c3_theorem demoInstr3 0 4 rfl (by decide)).1

/-! ## C8 -/

/-- Every index `multiStepLoop` writes to storage lies strictly above the
index it started from and within `steps.length`, and the written indices
are strictly increasing along the event trace. -/
theorem multiStepLoop_storedIndices (instruction : Instruction) (now : Nat)
    (sendOk : Bool) :
    ∀ fuel storage cur executed,
      (∀ v ∈ storedIndices
          (multiStepLoop instruction now sendOk fuel storage cur executed).events,
          cur < v ∧ v ≤ instruction.steps.length)
      ∧ List.Chain' (· < ·)
          (storedIndices
            (multiStepLoop instruction now sendOk fuel storage cur executed).events) := by
  intro fuel
  induction fuel with
  | zero =>
    intro storage cur executed
    simp [multiStepLoop, storedIndices]
  | succ f ih =>
    intro storage cur executed
    by_cases hc : cur ∈ executed
    · by_cases hN : instruction.steps.length ≤ cur + 1
      · simp [multiStepLoop, hc, hN, storedIndices]
      · have hrec := ih (some (skipAdvancedRec instruction now cur executed))
          (cur + 1) executed
        have hunf : (multiStepLoop instruction now sendOk (f + 1) storage cur executed).events
            = Event.setStorage (skipAdvancedRec instruction now cur executed)
              :: (multiStepLoop instruction now sendOk f
                  (some (skipAdvancedRec instruction now cur executed))
                  (cur + 1) executed).events := by
          simp only [multiStepLoop]
          rw [if_pos (by simpa using hc), if_neg (by omega)]
          rfl
        rw [hunf]
        have hsi : storedIndices (Event.setStorage (skipAdvancedRec instruction now cur executed)
              :: (multiStepLoop instruction now sendOk f
                  (some (skipAdvancedRec instruction now cur executed))
                  (cur + 1) executed).events)
            = (cur + 1) :: storedIndices (multiStepLoop instruction now sendOk f
                  (some (skipAdvancedRec instruction now cur executed))
                  (cur + 1) executed).events := rfl
        rw [hsi]
        constructor
        · intro v hv
          rcases List.mem_cons.mp hv with rfl | hv2
          · exact ⟨Nat.lt_succ_self _, by omega⟩
          · have h2 := hrec.1 v hv2
            omega
        · rw [List.chain'_cons']
          refine ⟨?_, hrec.2⟩
          intro b hb
          exact (hrec.1 b (List.mem_of_mem_head? hb)).1
    · by_cases hcur : cur < instruction.steps.length
      · by_cases hmid2 : cur + 1 < instruction.steps.length
        · constructor
          · intro v hv
            simp [multiStepLoop, hc, hcur, hmid2, storedIndices] at hv
            omega
          · simp [multiStepLoop, hc, hcur, hmid2, storedIndices]
        · cases hs : sendOk <;>
            simp [multiStepLoop, hc, hcur, hmid2, hs, storedIndices]
      · simp [multiStepLoop, hc, hcur, storedIndices]

/-- C8: within one `handleCurrentStep` call on a `multi_step_navigation`
record, every `currentStepIndex` value written to storage is strictly
greater than the index the call read (so the persisted index never
decreases) and at most `steps.length`, and successive writes are strictly
increasing. -/
theorem c8_theorem (instruction : Instruction) (rec : PendingAutomation) (now : Nat)
    (sendOk : Bool)
    (hact : instruction.action = "multi_step_navigation") :
    (∀ v ∈ storedIndices (handleCurrentStep instruction (some rec) now sendOk).events,
        rec.currentStepIndex < v ∧ v ≤ instruction.steps.length)
    ∧ List.Chain' (· < ·)
        (storedIndices (handleCurrentStep instruction (some rec) now sendOk).events) := by
  have heq : handleCurrentStep instruction (some rec) now sendOk
      = multiStepLoop instruction now sendOk (instruction.steps.length + 1)
          (some rec) rec.currentStepIndex rec.executedSteps := by
    simp [handleCurrentStep, hact]
  rw [heq]
  exact multiStepLoop_storedIndices instruction now sendOk _ _ _ _

/-- C8 witness: the fresh two-step record writes exactly the index 1,
which is above 0 and within bounds. -/
theorem c8_witness :
    (∀ v ∈ storedIndices
        (handleCurrentStep demoInstr2 (some (initialRec demoInstr2 0)) 0 true).events,
        (initialRec demoInstr2 0).currentStepIndex < v ∧ v ≤ demoInstr2.steps.length)
    ∧ List.Chain' (· < ·)
        (storedIndices
          (handleCurrentStep demoInstr2 (some (initialRec demoInstr2 0)) 0 true).events) :=
  c8_theorem demoInstr2 (initialRec demoInstr2 0) 0 true rfl

/-! ## C2 -/

/-- C2 counterexample.  With the record 301 s old (past the 5-minute
window): the poll that observes it leaves it in storage and deletes
nothing (contradicting "any poll that observes such a record deletes
it"), and the explicit trigger resumes it and dispatches step 0
(contradicting "no resumption path ever dispatches a step from it"). -/
theorem c2_counterexample :
    5 * 60 * 1000 < ctxExpired.now - expiredRec.lastUpdated
    ∧ pollForAutomation idleState (some expiredRec) ctxExpired
        = ⟨idleState, some expiredRec, []⟩
    ∧ Event.dispatchStep 0 ∈ (triggerAutomation idleState (some expiredRec) ctxExpired).events := by
  exact ⟨by decide, rfl, by decide⟩

/-- C2 amended: only the `tabs.onUpdated` page-complete path enforces the
5-minute staleness window.  For a record more than 5 minutes old: the
page-complete listener deletes it without dispatching anything; a poll
that observes it dispatches nothing but also leaves it in place
(deleting nothing); and the explicit trigger resumes it exactly as it
would a fresh record, dispatching from it regardless of its age. -/
theorem c2_amended_theorem (st : AutomationState) (pa : PendingAutomation) (ctx : PollCtx)
    (h1 : st.isRunning = false)
    (h2 : st.processingLock = false)
    (h3 : st.navigationInProgress = false)
    (hexp : 5 * 60 * 1000 < ctx.now - pa.lastUpdated) :
    onTabUpdatedComplete st (some pa) ctx.now ctx.sendOk
        = ⟨st, none, [Event.removeStorage]⟩
    ∧ pollForAutomation st (some pa) ctx = ⟨st, some pa, []⟩
    ∧ triggerAutomation st (some pa) ctx
        = ⟨{ st with isRunning := false },
           (handleCurrentStep pa.instruction (some pa) ctx.now ctx.sendOk).storage,
           (handleCurrentStep pa.instruction (some pa) ctx.now ctx.sendOk).events⟩ := by
  refine ⟨?_, ?_, ?_⟩
  · simp [onTabUpdatedComplete, hexp]
  · simp [pollForAutomation, h1, h2, h3]
  · simp [triggerAutomation, h1]

/-- C2 amended witness at the concrete expired record. -/
theorem c2_amended_witness :
    onTabUpdatedComplete idleState (some expiredRec) ctxExpired.now ctxExpired.sendOk
        = ⟨idleState, none, [Event.removeStorage]⟩
    ∧ pollForAutomation idleState (some expiredRec) ctxExpired
        = ⟨idleState, some expiredRec, []⟩
    ∧ triggerAutomation idleState (some expiredRec) ctxExpired
        = ⟨{ idleState with isRunning := false },
           (handleCurrentStep expiredRec.instruction (some expiredRec)
             ctxExpired.now ctxExpired.sendOk).storage,
           (handleCurrentStep expiredRec.instruction (some expiredRec)
             ctxExpired.now ctxExpired.sendOk).events⟩ :=
  c2_amended_theorem idleState expiredRec ctxExpired rfl rfl rfl (by decide)

/-- A batch whose steps all succeed returns the per-step results and
attempts every step. -/
theorem clickLoop_all_ok (dom : List DomElement) :
    ∀ els, (∀ s ∈ els, stepOkB dom s = true) →
      clickLoop dom els
        = ⟨Except.ok (els.map (resultOf dom)), els.map (fun s => s.description)⟩ := by
  intro els
  induction els with
  | nil => intro _; rfl
  | cons s rest ih =>
    intro h
    have hs := h s (List.mem_cons_self s rest)
    have hrest : ∀ x ∈ rest, stepOkB dom x = true :=
      fun x hx => h x (List.mem_cons_of_mem s hx)
    by_cases hw : (s.action == some "wait") = true
    · simp only [clickLoop, hw, if_true]
      rw [ih hrest]
      simp [resultOf, hw]
    · have hok : ∃ r, (clickElement dom s).result = Except.ok r := by
        have h2 := hs
        simp only [stepOkB, hw, Bool.false_or] at h2
        cases hres : (clickElement dom s).result with
        | ok r => exact ⟨r, rfl⟩
        | error e => rw [hres] at h2; simp at h2
      obtain ⟨r, hres⟩ := hok
      simp only [clickLoop, hw, if_false, Bool.false_eq_true, hres]
      rw [ih hrest]
      simp [resultOf, hw, hres]

/-- Prepending all-succeeding steps to a batch that throws: the throw
(and its message) propagates, the collected results are discarded, and
the attempted trace is the prefix followed by the throwing batch's
trace. -/
theorem clickLoop_error_prefix (dom : List DomElement) :
    ∀ pre suffix, (∀ s ∈ pre, stepOkB dom s = true) →
      ∀ E A, clickLoop dom suffix = ⟨Except.error E, A⟩ →
      clickLoop dom (pre ++ suffix)
        = ⟨Except.error E, pre.map (fun s => s.description) ++ A⟩ := by
  intro pre
  induction pre with
  | nil =>
    intro suffix _ E A hsuff
    simpa using hsuff
  | cons s rest ih =>
    intro suffix h E A hsuff
    have hs := h s (List.mem_cons_self s rest)
    have hrest : ∀ x ∈ rest, stepOkB dom x = true :=
      fun x hx => h x (List.mem_cons_of_mem s hx)
    have hIH := ih suffix hrest E A hsuff
    by_cases hw : (s.action == some "wait") = true
    · simp only [List.cons_append, clickLoop, hw, if_true]
      simp only [List.append_eq]
      rw [hIH]
      simp
    · have hok : ∃ r, (clickElement dom s).result = Except.ok r := by
        have h2 := hs
        simp only [stepOkB, hw, Bool.false_or] at h2
        cases hres : (clickElement dom s).result with
        | ok r => exact ⟨r, rfl⟩
        | error e => rw [hres] at h2; simp at h2
      obtain ⟨r, hres⟩ := hok
      simp only [List.cons_append, clickLoop, hw, if_false, Bool.false_eq_true, hres]
      simp only [List.append_eq]
      rw [hIH]
      simp

/-- Prepending all-succeeding steps to a batch that returns results. -/
theorem clickLoop_ok_prefix (dom : List DomElement) :
    ∀ pre suffix, (∀ s ∈ pre, stepOkB dom s = true) →
      ∀ RS A, clickLoop dom suffix = ⟨Except.ok RS, A⟩ →
      clickLoop dom (pre ++ suffix)
        = ⟨Except.ok (pre.map (resultOf dom) ++ RS),
           pre.map (fun s => s.description) ++ A⟩ := by
  intro pre
  induction pre with
  | nil =>
    intro suffix _ RS A hsuff
    simpa using hsuff
  | cons s rest ih =>
    intro suffix h RS A hsuff
    have hs := h s (List.mem_cons_self s rest)
    have hrest : ∀ x ∈ rest, stepOkB dom x = true :=
      fun x hx => h x (List.mem_cons_of_mem s hx)
    have hIH := ih suffix hrest RS A hsuff
    by_cases hw : (s.action == some "wait") = true
    · simp only [List.cons_append, clickLoop, hw, if_true]
      simp only [List.append_eq]
      rw [hIH]
      simp [resultOf, hw]
    · have hok : ∃ r, (clickElement dom s).result = Except.ok r := by
        have h2 := hs
        simp only [stepOkB, hw, Bool.false_or] at h2
        cases hres : (clickElement dom s).result with
        | ok r => exact ⟨r, rfl⟩
        | error e => rw [hres] at h2; simp at h2
      obtain ⟨r, hres⟩ := hok
      simp only [List.cons_append, clickLoop, hw, if_false, Bool.false_eq_true, hres]
      simp only [List.append_eq]
      rw [hIH]
      simp [resultOf, hw, hres]

/-! ## C1 -/

/-- C1 counterexample.  A critical step fails (its element is
unresolvable) and the content script reports `AUTOMATION_FAILED`; but
the orchestrator's failure handler leaves the persisted record in place
(contradicting "the persisted PendingAutomation record is removed"), and
since that record was already advanced past the failed step 0, the next
page-complete resume dispatches step 1 — a later step of the Instruction
(contradicting "no later step of the Instruction is ever dispatched"). -/
theorem c1_counterexample :
    contentOnAutomationClick emptyDom (some [critStepDemo])
      = Notification.automationFailed
          "Critical element click failed: Element \"Open admin panel\" not found after 5000ms"
    ∧ onAutomationFailedMsg runningState (some demoRecAfterStep0)
        = ({ runningState with isRunning := false }, some demoRecAfterStep0)
    ∧ Event.dispatchStep 1
        ∈ (onTabUpdatedComplete idleState (some demoRecAfterStep0) 2000 true).events := by
  refine ⟨rfl, rfl, ?_⟩
  have h : (onTabUpdatedComplete idleState (some demoRecAfterStep0) 2000 true).events
      = [Event.setStorage (advancedRec demoInstr3 demoRecAfterStep0 2000),
         Event.dispatchStep 1] := rfl
  rw [h]
  exact List.mem_cons_of_mem _ (List.mem_cons_self _ _)

/-- C1 amended: when a step with `critical = true` fails, the content
script stops the current `AUTOMATION_CLICK` batch at that step (no later
element of the request is attempted, the collected results are
discarded) and throws `Critical element click failed: …`, which reaches
the orchestrator as `AUTOMATION_FAILED`; the orchestrator's handler
clears the run lock but performs no storage operation, so the persisted
PendingAutomation record — already advanced past the failed step —
remains, and later steps can still be dispatched by a subsequent resume
trigger (as the counterexample exhibits). -/
theorem c1_amended_theorem (dom : List DomElement) (pre post : List Step)
    (critStep : Step) (msg : String) (st : AutomationState)
    (storage : Option PendingAutomation)
    (hcrit : critStep.critical = true)
    (hw : (critStep.action == some "wait") = false)
    (hfail : (clickElement dom critStep).result = Except.error msg)
    (hpre : ∀ s ∈ pre, stepOkB dom s = true) :
    handleElementsToClick dom (some (pre ++ critStep :: post))
      = ⟨Except.error ("Critical element click failed: " ++ msg),
         pre.map (fun s => s.description) ++ [critStep.description]⟩
    ∧ onAutomationFailedMsg st storage = ({ st with isRunning := false }, storage) := by
  constructor
  · have hsuffix : clickLoop dom (critStep :: post)
        = ⟨Except.error ("Critical element click failed: " ++ msg),
           [critStep.description]⟩ := by
      simp [clickLoop, hw, hfail, hcrit]
    have h := clickLoop_error_prefix dom pre (critStep :: post) hpre _ _ hsuffix
    have hne : (pre ++ critStep :: post).isEmpty = false := by
      cases pre <;> rfl
    simp only [handleElementsToClick, hne, Bool.false_eq_true, if_false]
    exact h
  · rfl

/-- C1 amended witness: an all-succeeding prefix, then the unresolvable
critical step, then a step that is never attempted. -/
theorem c1_amended_witness :
    handleElementsToClick batchDom (some ([waitStepDemo] ++ critStepDemo :: [okStepDemo]))
      = ⟨Except.error
           "Critical element click failed: Element \"Open admin panel\" not found after 5000ms",
         ["Pause", "Open admin panel"]⟩
    ∧ onAutomationFailedMsg runningState (some demoRecAfterStep0)
        = ({ runningState with isRunning := false }, some demoRecAfterStep0) := by
  have h := c1_amended_theorem batchDom [waitStepDemo] [okStepDemo] critStepDemo
      "Element \"Open admin panel\" not found after 5000ms"
      runningState (some demoRecAfterStep0) rfl rfl rfl
      (by intro s hs; fin_cases hs; rfl)
  exact h

/-! ## C7 -/

/-- C7: a failing step with `critical = false` is recorded as a
structured failure result while the batch attempts every element and
returns results for all of them; and at the orchestrator level the
resume run of the instruction containing the failing step still
dispatches every step index in order and ends with the record removed
(the run completes) — `handleCurrentStep` advances the record
independently of step outcomes. -/
theorem c7_theorem (dom : List DomElement) (pre post : List Step) (failStep : Step)
    (msg : String) (instruction : Instruction) (now fuel : Nat)
    (hcrit : failStep.critical = false)
    (hw : (failStep.action == some "wait") = false)
    (hfail : (clickElement dom failStep).result = Except.error msg)
    (hpre : ∀ s ∈ pre, stepOkB dom s = true)
    (hpost : ∀ s ∈ post, stepOkB dom s = true)
    (hact : instruction.action = "multi_step_navigation")
    (hsteps : instruction.steps = pre ++ failStep :: post)
    (hf : instruction.steps.length + 1 ≤ fuel) :
    handleElementsToClick dom (some (pre ++ failStep :: post))
      = ⟨Except.ok ((pre ++ failStep :: post).map (resultOf dom)),
         (pre ++ failStep :: post).map (fun s => s.description)⟩
    ∧ resultOf dom failStep
        = { description := failStep.description, success := false, error := some msg }
    ∧ resumeRun instruction now true fuel (some (initialRec instruction now))
        = (List.range instruction.steps.length, none) := by
  have hres : resultOf dom failStep
      = { description := failStep.description, success := false, error := some msg } := by
    simp [resultOf, hw, hfail]
  refine ⟨?_, hres, ?_⟩
  · have hppost := clickLoop_all_ok dom post hpost
    have hsuffix : clickLoop dom (failStep :: post)
        = ⟨Except.ok (resultOf dom failStep :: post.map (resultOf dom)),
           failStep.description :: post.map (fun s => s.description)⟩ := by
      simp only [clickLoop, hw, Bool.false_eq_true, if_false, hfail, hcrit]
      rw [hppost]
      simp [hres]
    have h := clickLoop_ok_prefix dom pre (failStep :: post) hpre _ _ hsuffix
    have hne : (pre ++ failStep :: post).isEmpty = false := by
      cases pre <;> rfl
    simp only [handleElementsToClick, hne, Bool.false_eq_true, if_false]
    rw [h]
    simp
  · have h := resume_range instruction now hact instruction.steps.length fuel 0
      (by omega) hf
    simpa [initialRec, List.range_eq_range'] using h

/-- C7 witness: the three-step batch (wait, unresolvable non-critical
click, succeeding click) attempts all elements and succeeds, and the
matching instruction's resume run dispatches `[0, 1, 2]` and completes. -/
theorem c7_witness :
    handleElementsToClick batchDom (some ([waitStepDemo] ++ failStepDemo :: [okStepDemo]))
      = ⟨Except.ok (([waitStepDemo] ++ failStepDemo :: [okStepDemo]).map (resultOf batchDom)),
         (([waitStepDemo] ++ failStepDemo :: [okStepDemo]).map (fun s => s.description))⟩
    ∧ resultOf batchDom failStepDemo
        = { description := failStepDemo.description, success := false,
            error := some "Element \"Click missing\" not found after 5000ms" }
    ∧ resumeRun c7Instr 0 true 4 (some (initialRec c7Instr 0))
        = (List.range c7Instr.steps.length, none) :=
  c7_theorem batchDom [waitStepDemo] [okStepDemo] failStepDemo
    "Element \"Click missing\" not found after 5000ms" c7Instr 0 4
    rfl rfl rfl (by intro s hs; fin_cases hs; rfl)
    (by intro s hs; fin_cases hs; rfl) rfl rfl (by decide)

/-! ## C5 -/

/-- Shrinking a filter below a singleton filter: if everything `q`
accepts is accepted by `p`, `q` accepts `el`, and `p` filters the list to
exactly `[el]`, then so does `q`. -/
theorem filter_eq_singleton_of_imp {α : Type} {p q : α → Bool} {l : List α} {el : α}
    (himp : ∀ a, q a = true → p a = true) (hq : q el = true)
    (h : l.filter p = [el]) : l.filter q = [el] := by
  induction l with
  | nil => simp at h
  | cons a t ih =>
    rw [List.filter_cons] at h ⊢
    by_cases hqa : q a = true
    · have hpa := himp a hqa
      rw [if_pos (by simp [hpa])] at h
      rw [if_pos (by simp [hqa])]
      have ha : a = el := (List.cons_eq_cons.mp h).1
      have ht : t.filter p = [] := (List.cons_eq_cons.mp h).2
      have htq : t.filter q = [] := by
        rw [List.filter_eq_nil_iff]
        intro x hx
        intro hqx
        have := List.filter_eq_nil_iff.mp ht x hx
        exact this (himp x hqx)
      rw [ha, htq]
    · rw [if_neg (by simpa using hqa)]
      by_cases hpa : p a = true
      · rw [if_pos (by simp [hpa])] at h
        have ha : a = el := (List.cons_eq_cons.mp h).1
        exact absurd (ha ▸ hq) hqa
      · rw [if_neg (by simpa using hpa)] at h
        exact ih h

/-- A resolution that ends with no element took the full timeout. -/
theorem findElement_element_none (dom : List DomElement) (step : Step)
    (h : (findElement dom step).element = none) :
    findElement dom step = ⟨none, step.timeout.getD 5000⟩ := by
  unfold findElement at h ⊢
  cases h1 : findElementImmediate dom step with
  | some e => simp [h1] at h
  | none =>
    simp only [h1] at h ⊢
    cases h2 : (waitForElement dom (allSelectors step) (step.timeout.getD 5000)).element with
    | some e => simp [h2] at h
    | none =>
      simp only [h2] at h ⊢
      cases h3 : looseTier dom step.description with
      | some e => simp [h3] at h
      | none => simp only [h3]

/-- C5 counterexample.  `plainTextEl` is the unique visible element whose
text contains the step's `text_content` hint, and no selector of the step
matches anything; yet resolution returns no element at all (after the
full deadline): the broad hint search only scans the option-like
catalogue, which a generic container is not part of.  This contradicts
"resolution returns that element before the deadline". -/
theorem c5_counterexample :
    (allSelectors c5Step).all (fun s => (querySelectorAll c5Dom s).isEmpty) = true
    ∧ c5Step.text_content = some "Submit order"
    ∧ (c5Dom.filter (fun e =>
        e.visible && strIncludes (jsTrim e.textContent) "Submit order")) = [plainTextEl]
    ∧ findElement c5Dom c5Step = ⟨none, 5000⟩ := by
  exact ⟨rfl, rfl, rfl, rfl⟩

/-- C5 amended: (a) when the step's selectors match nothing but the
`text_content` hint is contained in the trimmed text of exactly one
element **and** that element is in the option-like catalogue
(`[role="option"], li, [data-automation-id*="option"], .dropdown-option,
[role="menuitem"]`) with text shorter than twice the hint (and the
description does not trigger the Academics special case), resolution
returns that element immediately, i.e. before the (positive) deadline;
(b) when resolution finds nothing under any tier, it reports not-found
only after the full deadline, never early. -/
theorem c5_amended_theorem (dom : List DomElement) (step : Step) (el : DomElement)
    (hint : String) :
    (step.text_content = some hint →
     (hint != "") = true →
     strIncludes step.description "Academics" = false →
     (allSelectors step).all (fun s => (querySelectorAll dom s).isEmpty) = true →
     dom.filter (fun e => strIncludes (jsTrim e.textContent) hint) = [el] →
     el.matchedBy.contains optionLikeQuery = true →
     (jsTrim el.textContent).length < hint.length * 2 →
     0 < step.timeout.getD 5000 →
     findElement dom step = ⟨some el, 0⟩ ∧ 0 < step.timeout.getD 5000)
    ∧ ((findElement dom step).element = none →
       (findElement dom step).elapsed = step.timeout.getD 5000) := by
  constructor
  · intro htc hne hdesc hall hfil hopt hlen ht
    refine ⟨?_, ht⟩
    have hsel : ∀ s ∈ allSelectors step, querySelectorAll dom s = [] := by
      intro s hs
      have h2 := List.all_eq_true.mp hall s hs
      exact List.isEmpty_iff.mp (by simpa using h2)
    have hA : academicsTier dom step.description = none := by
      simp [academicsTier, hdesc]
    have hBySel : (allSelectors step).findSome? (bySelectorWithText dom hint) = none := by
      refine List.findSome?_eq_none_iff.mpr ?_
      intro sel hs
      simp [bySelectorWithText, hsel sel hs]
    have helP : strIncludes (jsTrim el.textContent) hint = true := by
      have hmem : el ∈ dom.filter (fun e => strIncludes (jsTrim e.textContent) hint) := by
        rw [hfil]
        exact List.mem_singleton_self el
      simpa using (List.mem_filter.mp hmem).2
    have hcomb : (querySelectorAll dom optionLikeQuery).filter (textHintPred hint) = [el] := by
      unfold querySelectorAll
      rw [List.filter_filter]
      refine filter_eq_singleton_of_imp ?_ ?_ hfil
      · intro a ha
        simp only [textHintPred, Bool.and_eq_true, decide_eq_true_eq] at ha
        exact ha.1.1
      · simp only [textHintPred, Bool.and_eq_true, decide_eq_true_eq]
        exact ⟨⟨helP, hlen⟩, hopt⟩
    have hTCT : textContentTier dom (allSelectors step) hint = some el := by
      unfold textContentTier
      simp only [hBySel]
      rw [hcomb]
      rfl
    have hImm : findElementImmediate dom step = some el := by
      unfold findElementImmediate
      simp only [hA, htc, hne, if_true, hTCT]
    unfold findElement
    rw [hImm]
  · intro hnone
    rw [findElement_element_none dom step hnone]

/-- C5 amended witness: (a) the `li` option-like element carrying the
hint is returned immediately; (b) on the empty document the same step
reports not-found only at the full 5000 ms deadline. -/
theorem c5_amended_witness :
    (findElement c5WitnessDom c5WitnessStep = ⟨some optionEl, 0⟩
      ∧ 0 < c5WitnessStep.timeout.getD 5000)
    ∧ (findElement emptyDom c5WitnessStep).elapsed = c5WitnessStep.timeout.getD 5000 :=
  ⟨(c5_amended_theorem c5WitnessDom c5WitnessStep optionEl "OK").1
      rfl rfl rfl rfl rfl rfl (by decide) (by decide),
   (c5_amended_theorem emptyDom c5WitnessStep optionEl "OK").2 rfl⟩
